import Mathlib

/-!
Verification development for the `podium` SpaceX agent repository.

We give a shallow embedding of the agent orchestration core:
* `prune_memory` embeds `SpaceXAgent._prune_memory` (src/agent.py), including
  Python's negative-index slice semantics for `messages[-target_len:]`;
* `chat_loop` / `handle_tool_call` embed the think-act-observe loop of
  `SpaceXAgent.chat`, with the LLM, the argument validator (json.loads +
  pydantic) and the tool executors as oracle parameters;
* `client_get` / `retryCall` embed the tenacity-wrapped `SpaceXClient._get`
  and `_post` (src/client.py);
* `clean_data` embeds `SpaceXClient._clean_data`;
* `query_launches` embeds the tool of the same name (src/tools.py).

Serialized JSON payloads (`json.dumps`) are modelled by storing the JSON
value itself in the message `content` field.
-/

/-- JSON values, as produced by `response.json()` in src/client.py. -/
inductive Json where
  | null
  | bool (b : Bool)
  | num (n : Int)
  | str (s : String)
  | arr (xs : List Json)
  | obj (kvs : List (String × Json))

/-- Check for `v is None` used by `_clean_data`. -/
def Json.isNull : Json → Bool
  | .null => true
  | _ => false

/-- Message roles used by the agent (src/agent.py). -/
inductive Role where
  | system
  | user
  | assistant
  | tool
deriving DecidableEq

/-- A pending tool invocation request as carried on an assistant message:
`tool_call.id`, `tool_call.function.name`, `tool_call.function.arguments`
(src/agent.py lines 309-315). -/
structure ToolCall where
  id : String
  name : String
  arguments : String
deriving DecidableEq

/-- A single conversation turn.  Unifies the dict-shaped messages the agent
appends with the SDK response objects (both are only ever inspected through
`role`, `content`, `tool_calls`, `tool_call_id`). -/
structure Message where
  role : Role
  content : Option Json := none
  tool_calls : List ToolCall := []
  tool_call_id : Option String := none

/-- First index whose element satisfies `p`, embedding the
`for i, msg in enumerate(recent_messages): ... break` scan of
`_prune_memory` (src/agent.py lines 205-219). -/
def findFirstIdx (p : α → Bool) : List α → Option Nat
  | [] => none
  | a :: rest => if p a then some 0 else (findFirstIdx p rest).map (· + 1)

/-- Start offset of the Python slice `xs[-t:]` on a list of length `len`:
for `t > 0` the start is `max (len - t) 0`; for `t = 0` the slice is the
whole list; for `t < 0` the index `-t` is positive, so the start is `-t`. -/
def sliceStartIdx (len : Nat) (t : Int) : Nat :=
  if 0 < t then len - t.toNat
  else if t = 0 then 0
  else (-t).toNat

/-- The Python slice `xs[-t:]` (used as `self.messages[-target_len:]`). -/
def pySuffix (xs : List α) (t : Int) : List α :=
  xs.drop (sliceStartIdx xs.length t)

/-- Source constant `self.max_history = 20` (src/agent.py line 145). -/
def max_history : Nat := 20

/-- Embedding of `SpaceXAgent._prune_memory` (src/agent.py lines 149-231),
as a pure function of the message list and the `max_history` bound. -/
def prune_memory (msgs : List Message) (maxHistory : Nat) : List Message :=
  if msgs.length ≤ maxHistory then msgs
  else
    -- new_messages = [self.messages[0]]
    let newMessages := msgs.take 1
    -- target_len = self.max_history - 1
    let targetLen : Int := (maxHistory : Int) - 1
    -- recent_messages = self.messages[-target_len:]
    let recentMessages := pySuffix msgs targetLen
    -- first 'user' message in the recent block, defaulting to 0
    let safeStartIndex := (findFirstIdx (fun m => decide (m.role = Role.user)) recentMessages).getD 0
    -- self.messages = new_messages + recent_messages[safe_start_index:]
    newMessages ++ recentMessages.drop safeStartIndex

/-- Absolute index (into the original log) of the first retained
post-system message of `prune_memory` in the trimming branch. -/
def pruneCut (msgs : List Message) (maxHistory : Nat) : Nat :=
  sliceStartIdx msgs.length ((maxHistory : Int) - 1) +
    ((findFirstIdx (fun m => decide (m.role = Role.user))
      (pySuffix msgs ((maxHistory : Int) - 1))).getD 0)

/-- Fixed example messages used by witnesses below. -/
def sysM : Message := {role := .system, content := some (.str "You are a specialized SpaceX Assistant.")}

def userM : Message := {role := .user, content := some (.str "hi")}

def asstM : Message := {role := .assistant, content := some (.str "hello")}

/-- Serialized empty-object arguments payload of a zero-argument tool call. -/
def emptyArgs : String := "\x7b\x7d"

/-- Counterexample log for C1: one assistant message issuing 21 tool calls
followed by its 21 tool observations, with no user message anywhere in the
trim window. -/
def cexToolCalls : List ToolCall :=
  (List.range 21).map (fun i => ⟨toString i, "get_next_launch", emptyArgs⟩)

def cexAsst : Message := {role := .assistant, tool_calls := cexToolCalls}

def cexTools : List Message :=
  (List.range 21).map (fun i => {role := .tool, tool_call_id := some (toString i)})

def cexLog : List Message := sysM :: cexAsst :: cexTools

def asstTC : Message := {role := .assistant, tool_calls := [⟨"a", "get_next_launch", emptyArgs⟩]}

def toolA : Message := {role := .tool, tool_call_id := some "a"}

def orphanLog : List Message := [sysM, asstM, userM, asstTC, toolA]

/-- Validated tool inputs, mirroring the pydantic models of src/tools.py
(`NextLaunchInput`, ..., `LaunchQueryInput`). -/
inductive ValidatedInput where
  | nextLaunch
  | latestLaunch
  | companyInfo
  | rocketDetails (rocket_id : String)
  | launchpadDetails (launchpad_id : String)
  | wikipedia (query : String)
  | launchQuery (year : Option Int) (success : Option Bool) (limit : Option Int)
deriving DecidableEq

/-- A recorded invocation of a bound executor (used to count executor calls). -/
structure ExecCall where
  name : String
  args : ValidatedInput
deriving DecidableEq

/-- An LLM chat-completion response: optional text plus an ordered list of
tool-call requests (`response.choices[0].message`). -/
structure LLMResponse where
  content : Option Json := none
  tool_calls : List ToolCall := []

/-- The keys of `self.tools_map` (src/agent.py lines 109-125), in source
order. -/
def tools_map_names : List String :=
  ["get_next_launch", "get_latest_launch", "get_rocket_details", "get_company_info",
   "get_launchpad_details", "get_wikipedia_summary", "query_launches"]

/-- The assistant message appended for a model response
(`self.messages.append(message)`). -/
def assistant_message (resp : LLMResponse) : Message :=
  {role := .assistant, content := resp.content, tool_calls := resp.tool_calls}

/-- The user message appended at the start of a turn
(`self.messages.append({"role": "user", "content": user_input})`). -/
def user_message (text : String) : Message :=
  {role := .user, content := some (.str text)}

/-- An error observation appended as a tool message, modelling
`json.dumps({"error": msg})` with `content` holding the JSON value. -/
def errObs (callId : String) (msg : String) : Message :=
  {role := .tool, content := some (.obj [("error", .str msg)]), tool_call_id := some callId}

/-- Handling of one tool-call request (src/agent.py lines 309-387):
registry lookup, then argument parsing/validation (json.loads + pydantic,
the oracle `validate`), then execution (the oracle `execTool`); every branch
appends exactly one tool message carrying the request id.  The second
component records the executor invocations actually performed. -/
def handle_tool_call
    (validate : String → String → Except String ValidatedInput)
    (execTool : String → ValidatedInput → Except String Json)
    (tc : ToolCall) : Message × List ExecCall :=
  if tc.name ∈ tools_map_names then
    match validate tc.name tc.arguments with
    | .ok args =>
      match execTool tc.name args with
      | .ok result =>
        ({role := .tool, content := some result, tool_call_id := some tc.id},
         [⟨tc.name, args⟩])
      | .error e =>
        (errObs tc.id ("Tool Execution Error: " ++ e), [⟨tc.name, args⟩])
    | .error e =>
      (errObs tc.id ("Tool Execution Error: " ++ e), [])
  else
    (errObs tc.id ("Tool " ++ tc.name ++ " not found"), [])

/-- Sequential dispatch of the requests of one assistant message, in the
order the model emitted them (`for tool_call in message.tool_calls`). -/
def handle_tool_calls
    (validate : String → String → Except String ValidatedInput)
    (execTool : String → ValidatedInput → Except String Json) :
    List ToolCall → List Message × List ExecCall
  | [] => ([], [])
  | tc :: rest =>
    ((handle_tool_call validate execTool tc).1 :: (handle_tool_calls validate execTool rest).1,
     (handle_tool_call validate execTool tc).2 ++ (handle_tool_calls validate execTool rest).2)

/-- Outcome of one `chat` turn. -/
inductive TurnOutcome where
  | done
  | llmError (err : String)
  | fuelExhausted
deriving DecidableEq

/-- The `while True` think-act-observe loop of `SpaceXAgent.chat`
(src/agent.py lines 259-393).  The LLM call is the oracle `llm`; a failing
call (`except Exception ... return`) aborts the turn with the log unchanged.
The Python loop is unbounded; `fuel` bounds the embedding. -/
def chat_loop
    (llm : List Message → Except String LLMResponse)
    (validate : String → String → Except String ValidatedInput)
    (execTool : String → ValidatedInput → Except String Json) :
    Nat → List Message → TurnOutcome × List Message
  | 0, msgs => (.fuelExhausted, msgs)
  | fuel + 1, msgs =>
    match llm msgs with
    | .error e => (.llmError e, msgs)
    | .ok resp =>
      let msgs1 := msgs ++ [assistant_message resp]
      match resp.tool_calls with
      | [] => (.done, msgs1)
      | _ =>
        chat_loop llm validate execTool fuel
          (msgs1 ++ (handle_tool_calls validate execTool resp.tool_calls).1)

/-- Embedding of `SpaceXAgent.chat`: append the user message, prune, then run the loop. -/
def chat
    (llm : List Message → Except String LLMResponse)
    (validate : String → String → Except String ValidatedInput)
    (execTool : String → ValidatedInput → Except String Json)
    (fuel : Nat) (msgs : List Message) (user_input : String) :
    TurnOutcome × List Message :=
  chat_loop llm validate execTool fuel
    (prune_memory (msgs ++ [user_message user_input]) max_history)

def resp0 : LLMResponse := {tool_calls := [⟨"a", "get_next_launch", emptyArgs⟩]}

mutual
/-- Embedding of `SpaceXClient._clean_data` (src/client.py lines 62-79): recursively
remove null values, `_id`-suffixed keys and the fixed large-list fields. -/
def clean_data : Json → Json
  | .null => .null
  | .bool b => .bool b
  | .num n => .num n
  | .str s => .str s
  | .arr xs => .arr (cleanItems xs)
  | .obj kvs => .obj (cleanFields kvs)

/-- List branch `[self._clean_data(item) for item in data if item is not None]`. -/
def cleanItems : List Json → List Json
  | [] => []
  | v :: rest => if v.isNull then cleanItems rest else clean_data v :: cleanItems rest

/-- The dict branch: keep `(k, v)` only when
`v is not None and not k.endswith("_id") and k not in ["ships", "capsules", "payloads"]`. -/
def cleanFields : List (String × Json) → List (String × Json)
  | [] => []
  | (k, v) :: rest =>
    if ¬ v.isNull ∧ ¬ k.endsWith "_id" ∧ k ∉ ["ships", "capsules", "payloads"] then
      (k, clean_data v) :: cleanFields rest
    else cleanFields rest
end

/-- The connection-level exception types listed in the tenacity
`retry_if_exception_type` filter (src/client.py lines 24, 45). -/
inductive ConnErrKind where
  | connectTimeout
  | readTimeout
  | connectError
  | remoteProtocolError
deriving DecidableEq

/-- Outcome of one HTTP attempt, indexed by attempt number: a 2xx body, an
application-level non-2xx status, or a connection-level failure. -/
inductive HttpOutcome where
  | success (body : Json)
  | statusError (code : Nat)
  | connError (k : ConnErrKind)

/-- Result of a `_get`/`_post` call: a returned value, or a connection-level
exception surfaced after the retry ceiling. -/
inductive GetResult where
  | ok (data : Json)
  | raised (k : ConnErrKind)

/-- Structured error payload with key "error" and value "API returned <status>"
(src/client.py lines 37, 57). -/
def errorDict (code : Nat) : Json :=
  .obj [("error", .str ("API returned " ++ toString code))]

/-- One execution of the body of `_get`/`_post`: a 2xx response is cleaned
and returned; a non-2xx status is caught (`httpx.HTTPStatusError`) and
converted to `errorDict` without raising; a connection-level error is
re-raised so that tenacity sees it. -/
def attemptOnce (transport : Nat → HttpOutcome) (n : Nat) : GetResult :=
  match transport n with
  | .success body => .ok (clean_data body)
  | .statusError code => .ok (errorDict code)
  | .connError k => .raised k

/-- Retry ceiling `stop_after_attempt(3)` (src/client.py lines 22, 43). -/
def stop_after_attempt : Nat := 3

/-- The tenacity retry driver: `remaining` attempts are allowed, the next
one being attempt number `n`.  A normal return is final; a raised
connection-level error is retried while attempts remain, and re-surfaced
once the ceiling is reached.  Returns the number of attempts performed
together with the final result.  (The ceiling is at least 1, so the
`remaining = 0` case is never reached from `client_get`.) -/
def retryCall (transport : Nat → HttpOutcome) (n : Nat) : Nat → Nat × GetResult
  | 0 => (0, .raised .connectError)
  | remaining + 1 =>
    match attemptOnce transport n with
    | .ok d => (1, .ok d)
    | .raised k =>
      if remaining = 0 then (1, .raised k)
      else
        let next := retryCall transport (n + 1) remaining
        (next.1 + 1, next.2)

/-- Embedding of `SpaceXClient._get` / `_post`: the generic request wrapper under
`@retry(stop=stop_after_attempt(3), ...)`. -/
def client_get (transport : Nat → HttpOutcome) : Nat × GetResult :=
  retryCall transport 1 stop_after_attempt

/-- Input schema `LaunchQueryInput` (src/tools.py lines 36-42): optional year, optional
success flag, result limit defaulting to 5. -/
structure LaunchQueryInput where
  year : Option Int := none
  success : Option Bool := none
  limit : Option Int := some 5

/-- An optional integer as a JSON value (`None` serializes to null). -/
def optIntJson : Option Int → Json
  | some n => .num n
  | none => .null

/-- The Mongo-style filter built by `query_launches`
(src/tools.py lines 108-127): a `date_utc` range when a year is given, and
the `success` flag when given. -/
def launchQueryFilter (input : LaunchQueryInput) : List (String × Json) :=
  (match input.year with
   | some y =>
     [("date_utc", .obj [("$gte", .str (toString y ++ "-01-01T00:00:00.000Z")),
                         ("$lt", .str (toString (y + 1) ++ "-01-01T00:00:00.000Z"))])]
   | none => []) ++
  (match input.success with
   | some b => [("success", .bool b)]
   | none => [])

/-- The fixed options object (src/tools.py lines 130-138). -/
def launchQueryOptions (input : LaunchQueryInput) : Json :=
  .obj [("limit", optIntJson input.limit),
        ("sort", .obj [("date_utc", .str "desc")]),
        ("select", .arr [.str "name", .str "date_utc", .str "success", .str "rocket",
                         .str "details", .str "failures"])]

/-- Request payload of `SpaceXClient.query_launches` with query and options keys
(src/client.py lines 151-159; options is always passed by the tool). -/
def launchQueryPayload (input : LaunchQueryInput) : Json :=
  .obj [("query", .obj (launchQueryFilter input)), ("options", launchQueryOptions input)]

/-- Python `dict.get(key, default)` on a JSON object. -/
def Json.getKeyD (j : Json) (k : String) (dflt : Json) : Json :=
  match j with
  | .obj kvs =>
    match kvs.lookup k with
    | some v => v
    | none => dflt
  | _ => dflt

/-- The tool `query_launches` (src/tools.py lines 98-144): build the filter,
post it (the oracle `post` stands for `client.query_launches`, i.e. `_post`),
and return `result.get("docs", [])`. -/
def query_launches (post : Json → Json) (input : LaunchQueryInput) : Json :=
  (post (launchQueryPayload input)).getKeyD "docs" (.arr [])

theorem findFirstIdx_spec (p : α → Bool) :
    ∀ (l : List α) (s : Nat), findFirstIdx p l = some s →
      ∃ h : s < l.length, p (l.get ⟨s, h⟩) = true := by
  intro l
  induction l with
  | nil => intro s h; simp [findFirstIdx] at h
  | cons a rest ih =>
    intro s h
    by_cases ha : p a
    · simp [findFirstIdx, ha] at h
      subst h
      exact ⟨by simp, by simpa using ha⟩
    · simp [findFirstIdx, ha] at h
      obtain ⟨s', hs', rfl⟩ := h
      obtain ⟨hlt, hp⟩ := ih s' hs'
      exact ⟨by simpa using Nat.succ_lt_succ hlt, by simpa using hp⟩

theorem findFirstIdx_isSome (p : α → Bool) {l : List α} {x : α}
    (hx : x ∈ l) (hp : p x = true) : (findFirstIdx p l).isSome := by
  induction l with
  | nil => cases hx
  | cons a rest ih =>
    by_cases ha : p a
    · simp [findFirstIdx, ha]
    · rcases List.mem_cons.mp hx with rfl | hmem
      · exact absurd hp (by simpa using ha)
      · simpa [findFirstIdx, ha, Option.isSome_map] using ih hmem

/-- In the trimming branch, the pruned log is the preserved head followed by
the suffix of the original log starting at `pruneCut`. -/
theorem prune_memory_eq_cut (msgs : List Message) (N : Nat)
    (h : N < msgs.length) :
    prune_memory msgs N = msgs.take 1 ++ msgs.drop (pruneCut msgs N) := by
  have hnot : ¬ msgs.length ≤ N := Nat.not_le.mpr h
  simp only [prune_memory, hnot, if_false, pySuffix, pruneCut]
  rw [List.drop_drop]

/-- C10: `prune(log, N)[0] == log[0]` for every log and every bound `N`,
both on the unchanged branch and on the trimming branch. -/
theorem prune_preserves_head (msgs : List Message) (N : Nat) :
    (prune_memory msgs N).head? = msgs.head? := by
  by_cases h : msgs.length ≤ N
  · simp [prune_memory, h]
  · have hlt := Nat.not_le.mp h
    rw [prune_memory_eq_cut msgs N hlt]
    cases msgs with
    | nil => simp at hlt
    | cons a rest => simp

/-- C4: whenever a qualifying cut point (a `user` message inside the
candidate window of the last `N - 1` messages) exists,
`len(prune(log, N)) ≤ N`. -/
theorem prune_bounds_length (msgs : List Message) (N : Nat)
    (h : ∃ m ∈ msgs.drop (msgs.length - (N - 1)), m.role = Role.user) :
    (prune_memory msgs N).length ≤ N := by
  by_cases hlen : msgs.length ≤ N
  · simp [prune_memory, hlen]
  · have hlt := Nat.not_le.mp hlen
    obtain ⟨m, hm, _⟩ := h
    have hN2 : 2 ≤ N := by
      by_contra hN
      push_neg at hN
      have hz : msgs.length - (N - 1) = msgs.length := by omega
      rw [hz, List.drop_length] at hm
      cases hm
    have ht : (0 : Int) < (N : Int) - 1 := by omega
    have hs : sliceStartIdx msgs.length ((N : Int) - 1) = msgs.length - (N - 1) := by
      simp only [sliceStartIdx, ht, if_pos]
      congr 1
      omega
    simp only [prune_memory, hlen, if_false, pySuffix, hs, List.length_append,
      List.length_take, List.length_drop]
    omega

/-- C2: for a log longer than the bound (and any bound of at least 2, such
as the source's `max_history = 20`), the pruned log is the preserved system
head followed by a suffix of the original log: the cut drops a contiguous
block of oldest post-system turns, never interior ones. -/
theorem prune_suffix_aligned (msgs : List Message) (N : Nat)
    (hN : 2 ≤ N) (h : N < msgs.length) :
    ∃ c, 1 ≤ c ∧ prune_memory msgs N = msgs.take 1 ++ msgs.drop c := by
  refine ⟨pruneCut msgs N, ?_, prune_memory_eq_cut msgs N h⟩
  unfold pruneCut
  have ht : (0 : Int) < (N : Int) - 1 := by omega
  have hs : sliceStartIdx msgs.length ((N : Int) - 1) = msgs.length - (N - 1) := by
    simp only [sliceStartIdx, ht, if_pos]
    congr 1
    omega
  rw [hs]
  omega

theorem prune_bounds_length_witness :
    (∃ m ∈ ([sysM, asstM, userM, asstM] : List Message).drop
        (([sysM, asstM, userM, asstM] : List Message).length - (3 - 1)), m.role = Role.user) ∧
    (prune_memory [sysM, asstM, userM, asstM] 3).length ≤ 3 := by
  have h : ∃ m ∈ ([sysM, asstM, userM, asstM] : List Message).drop
      (([sysM, asstM, userM, asstM] : List Message).length - (3 - 1)), m.role = Role.user := by
    refine ⟨userM, ?_, rfl⟩
    simp
  exact ⟨h, prune_bounds_length _ 3 h⟩

theorem prune_suffix_aligned_witness :
    2 ≤ 2 ∧ 2 < ([sysM, userM, asstM] : List Message).length ∧
    ∃ c, 1 ≤ c ∧ prune_memory [sysM, userM, asstM] 2 =
      ([sysM, userM, asstM] : List Message).take 1 ++ ([sysM, userM, asstM] : List Message).drop c :=
  ⟨Nat.le_refl 2, by simp, prune_suffix_aligned _ 2 (Nat.le_refl 2) (by simp)⟩

/-- When the trim window contains a `user` message, the cut index chosen by
`_prune_memory` points at a `user`-role message of the original log. -/
theorem pruneCut_role_user (msgs : List Message) (N : Nat)
    (h : N < msgs.length)
    (huser : ∃ mu ∈ msgs.drop (msgs.length - (N - 1)), mu.role = Role.user) :
    (msgs[pruneCut msgs N]?).map Message.role = some Role.user := by
  obtain ⟨mu, hmem, hrole⟩ := huser
  have hN2 : 2 ≤ N := by
    by_contra hN
    push_neg at hN
    have hz : msgs.length - (N - 1) = msgs.length := by omega
    rw [hz, List.drop_length] at hmem
    cases hmem
  have ht : (0 : Int) < (N : Int) - 1 := by omega
  have hs : sliceStartIdx msgs.length ((N : Int) - 1) = msgs.length - (N - 1) := by
    simp only [sliceStartIdx, ht, if_pos]
    congr 1
    omega
  have hrec : pySuffix msgs ((N : Int) - 1) = msgs.drop (msgs.length - (N - 1)) := by
    rw [pySuffix, hs]
  have hsome := findFirstIdx_isSome (fun mm => decide (mm.role = Role.user))
    (l := pySuffix msgs ((N : Int) - 1)) (x := mu)
    (by rw [hrec]; exact hmem) (by simp [hrole])
  obtain ⟨s, hfind⟩ := Option.isSome_iff_exists.mp hsome
  obtain ⟨hslt, hp⟩ := findFirstIdx_spec _ _ s hfind
  have hcut : pruneCut msgs N = (msgs.length - (N - 1)) + s := by
    rw [pruneCut, hfind, hs]
    rfl
  have hget : (pySuffix msgs ((N : Int) - 1))[s]? = msgs[(msgs.length - (N - 1)) + s]? := by
    rw [hrec, List.getElem?_drop]
  rw [hcut, ← hget, List.getElem?_eq_getElem hslt]
  have hrole' := of_decide_eq_true hp
  simp only [List.get_eq_getElem] at hrole'
  simp [hrole']

/-- C1 (amended): provided the candidate window contains a `user` message,
pruning never retains a tool observation of an assistant/tool block without
also retaining the requesting assistant message: the cut index lies at or
before the assistant message whenever any of its tool messages survives. -/
theorem prune_no_orphan_of_user_cut (msgs : List Message) (N i k m : Nat)
    (hlen : N < msgs.length)
    (huser : ∃ mu ∈ msgs.drop (msgs.length - (N - 1)), mu.role = Role.user)
    (hik : i + k < msgs.length)
    (hasst : ∃ ma, msgs[i]? = some ma ∧ ma.role = Role.assistant ∧ ma.tool_calls ≠ [])
    (htools : ∀ j, 1 ≤ j → j ≤ k → (msgs[i + j]?).map Message.role = some Role.tool)
    (hm1 : 1 ≤ m) (hmk : m ≤ k)
    (hret : pruneCut msgs N ≤ i + m) :
    pruneCut msgs N ≤ i ∧
      prune_memory msgs N = msgs.take 1 ++ msgs.drop (pruneCut msgs N) := by
  refine ⟨?_, prune_memory_eq_cut msgs N hlen⟩
  have hcrole := pruneCut_role_user msgs N hlen huser
  by_contra hci
  push_neg at hci
  have hj := htools (pruneCut msgs N - i) (by omega) (by omega)
  have hidx : i + (pruneCut msgs N - i) = pruneCut msgs N := by omega
  rw [hidx, hcrole] at hj
  cases hj

/-- C1 counterexample: in `cexLog` message 1 is an assistant message with 21
tool-call requests and messages 2..22 are the corresponding tool messages,
yet `prune_memory` with the source's `max_history = 20` retains tool
observations of that block (e.g. the one answering request id "20") while
the requesting assistant message is not retained: the pruned log contains
no assistant-role message at all. -/
theorem prune_orphan_counterexample :
    cexLog.length = 23 ∧
    (cexLog[1]?).map Message.role = some Role.assistant ∧
    cexAsst.tool_calls.length = 21 ∧
    ((cexLog.drop 2).all fun mm => mm.role == Role.tool) = true ∧
    cexTools.map Message.tool_call_id = cexAsst.tool_calls.map (fun tc => some tc.id) ∧
    ((prune_memory cexLog max_history).any fun mm => mm.tool_call_id == some "20") = true ∧
    ((prune_memory cexLog max_history).all fun mm => mm.role != Role.assistant) = true := by
  decide

theorem prune_no_orphan_of_user_cut_witness :
    4 < orphanLog.length ∧
    (∃ mu ∈ orphanLog.drop (orphanLog.length - (4 - 1)), mu.role = Role.user) ∧
    3 + 1 < orphanLog.length ∧
    (∃ ma, orphanLog[3]? = some ma ∧ ma.role = Role.assistant ∧ ma.tool_calls ≠ []) ∧
    pruneCut orphanLog 4 ≤ 3 + 1 ∧
    (pruneCut orphanLog 4 ≤ 3 ∧
      prune_memory orphanLog 4 = orphanLog.take 1 ++ orphanLog.drop (pruneCut orphanLog 4)) := by
  have huser : ∃ mu ∈ orphanLog.drop (orphanLog.length - (4 - 1)), mu.role = Role.user := by
    refine ⟨userM, ?_, rfl⟩
    simp [orphanLog]
  have hasst : ∃ ma, orphanLog[3]? = some ma ∧ ma.role = Role.assistant ∧ ma.tool_calls ≠ [] := by
    refine ⟨asstTC, rfl, rfl, by simp [asstTC]⟩
  have htools : ∀ j, 1 ≤ j → j ≤ 1 → (orphanLog[3 + j]?).map Message.role = some Role.tool := by
    intro j h1 h2
    have : j = 1 := by omega
    subst this
    rfl
  refine ⟨by simp [orphanLog], huser, by simp [orphanLog], hasst, by decide, ?_⟩
  exact prune_no_orphan_of_user_cut orphanLog 4 3 1 1 (by simp [orphanLog]) huser
    (by simp [orphanLog]) hasst htools (Nat.le_refl 1) (Nat.le_refl 1) (by decide)

/-- C3: when the LLM call fails, the turn is aborted with the error
surfaced as the outcome and the Conversation Log exactly as it was at the
moment of the failed call: no assistant or tool message is appended. -/
theorem llm_failure_leaves_log
    (llm : List Message → Except String LLMResponse)
    (validate : String → String → Except String ValidatedInput)
    (execTool : String → ValidatedInput → Except String Json)
    (fuel : Nat) (msgs : List Message) (e : String)
    (h : llm msgs = .error e) :
    chat_loop llm validate execTool (fuel + 1) msgs = (.llmError e, msgs) := by
  simp [chat_loop, h]

theorem llm_failure_leaves_log_witness :
    (fun _ : List Message => (Except.error "boom" : Except String LLMResponse)) [sysM]
      = .error "boom" ∧
    chat_loop (fun _ => .error "boom") (fun _ _ => .error "invalid")
      (fun _ _ => .error "down") 1 [sysM] = (.llmError "boom", [sysM]) :=
  ⟨rfl, llm_failure_leaves_log _ _ _ 0 [sysM] "boom" rfl⟩

/-- Every branch of `handle_tool_call` appends a tool-role message carrying
the request's correlation id. -/
theorem handle_tool_call_id
    (validate : String → String → Except String ValidatedInput)
    (execTool : String → ValidatedInput → Except String Json)
    (tc : ToolCall) :
    (handle_tool_call validate execTool tc).1.tool_call_id = some tc.id ∧
    (handle_tool_call validate execTool tc).1.role = Role.tool := by
  unfold handle_tool_call
  split
  · split
    · split <;> simp [errObs]
    · simp [errObs]
  · simp [errObs]

theorem handle_tool_calls_ids
    (validate : String → String → Except String ValidatedInput)
    (execTool : String → ValidatedInput → Except String Json) :
    ∀ tcs : List ToolCall,
      (handle_tool_calls validate execTool tcs).1.map Message.tool_call_id
        = tcs.map (fun tc => some tc.id) := by
  intro tcs
  induction tcs with
  | nil => rfl
  | cons tc rest ih =>
    simp [handle_tool_calls, (handle_tool_call_id validate execTool tc).1, ih]

theorem handle_tool_calls_roles
    (validate : String → String → Except String ValidatedInput)
    (execTool : String → ValidatedInput → Except String Json) :
    ∀ tcs : List ToolCall,
      ∀ mm ∈ (handle_tool_calls validate execTool tcs).1, mm.role = Role.tool := by
  intro tcs
  induction tcs with
  | nil => intro mm hm; cases hm
  | cons tc rest ih =>
    intro mm hm
    rcases List.mem_cons.mp hm with rfl | hm'
    · exact (handle_tool_call_id validate execTool tc).2
    · exact ih mm hm'

/-- C5: when the model answers with tool-call requests `[a, b, c, ...]`,
the loop appends the assistant message followed by one tool message per
request, in exactly the emitted order, and the `j`-th appended tool message
carries `tool_call_id` equal to the id of the `j`-th request. -/
theorem tool_dispatch_order
    (llm : List Message → Except String LLMResponse)
    (validate : String → String → Except String ValidatedInput)
    (execTool : String → ValidatedInput → Except String Json)
    (fuel : Nat) (msgs : List Message) (resp : LLMResponse)
    (hllm : llm msgs = .ok resp) (hne : resp.tool_calls ≠ []) :
    chat_loop llm validate execTool (fuel + 1) msgs
      = chat_loop llm validate execTool fuel
          ((msgs ++ [assistant_message resp]) ++
            (handle_tool_calls validate execTool resp.tool_calls).1)
    ∧ (handle_tool_calls validate execTool resp.tool_calls).1.map Message.tool_call_id
        = resp.tool_calls.map (fun tc => some tc.id)
    ∧ ∀ mm ∈ (handle_tool_calls validate execTool resp.tool_calls).1, mm.role = Role.tool := by
  refine ⟨?_, handle_tool_calls_ids validate execTool _,
    handle_tool_calls_roles validate execTool _⟩
  rcases htc : resp.tool_calls with _ | ⟨a, rest⟩
  · exact absurd htc hne
  · simp [chat_loop, hllm, htc]

theorem tool_dispatch_order_witness :
    (fun _ : List Message => (Except.ok resp0 : Except String LLMResponse)) [sysM]
      = .ok resp0 ∧
    resp0.tool_calls ≠ [] ∧
    (chat_loop (fun _ => .ok resp0) (fun _ _ => .ok .nextLaunch)
        (fun _ _ => .ok (.obj [])) 1 [sysM]
      = chat_loop (fun _ => .ok resp0) (fun _ _ => .ok .nextLaunch)
          (fun _ _ => .ok (.obj [])) 0
          (([sysM] ++ [assistant_message resp0]) ++
            (handle_tool_calls (fun _ _ => .ok .nextLaunch)
              (fun _ _ => .ok (.obj [])) resp0.tool_calls).1)
    ∧ (handle_tool_calls (fun _ _ => .ok .nextLaunch)
          (fun _ _ => .ok (.obj [])) resp0.tool_calls).1.map Message.tool_call_id
        = resp0.tool_calls.map (fun tc => some tc.id)
    ∧ ∀ mm ∈ (handle_tool_calls (fun _ _ => .ok .nextLaunch)
          (fun _ _ => .ok (.obj [])) resp0.tool_calls).1, mm.role = Role.tool) :=
  ⟨rfl, by simp [resp0],
    tool_dispatch_order _ _ _ 0 [sysM] resp0 rfl (by simp [resp0])⟩

/-- C6: a request whose name is absent from the registry, or whose raw
arguments fail to parse/validate, performs zero executor invocations and
yields an error-observation tool message. -/
theorem unknown_or_invalid_never_executes
    (validate : String → String → Except String ValidatedInput)
    (execTool : String → ValidatedInput → Except String Json)
    (tc : ToolCall)
    (h : tc.name ∉ tools_map_names ∨ ∃ e, validate tc.name tc.arguments = .error e) :
    (handle_tool_call validate execTool tc).2 = [] ∧
    ∃ emsg, (handle_tool_call validate execTool tc).1 = errObs tc.id emsg := by
  rcases h with hname | ⟨e, he⟩
  · simp only [handle_tool_call, hname, if_false]
    exact ⟨trivial, _, rfl⟩
  · by_cases hname : tc.name ∈ tools_map_names
    · simp only [handle_tool_call, hname, if_true, he]
      exact ⟨trivial, _, rfl⟩
    · simp only [handle_tool_call, hname, if_false]
      exact ⟨trivial, _, rfl⟩

theorem unknown_or_invalid_never_executes_witness :
    ((⟨"1", "bogus", emptyArgs⟩ : ToolCall).name ∉ tools_map_names ∨
      ∃ e, (fun _ _ => (Except.error "invalid" : Except String ValidatedInput))
        (⟨"1", "bogus", emptyArgs⟩ : ToolCall).name
        (⟨"1", "bogus", emptyArgs⟩ : ToolCall).arguments = .error e) ∧
    (handle_tool_call (fun _ _ => .error "invalid") (fun _ _ => .ok (.obj []))
      ⟨"1", "bogus", emptyArgs⟩).2 = [] ∧
    ∃ emsg, (handle_tool_call (fun _ _ => .error "invalid") (fun _ _ => .ok (.obj []))
      ⟨"1", "bogus", emptyArgs⟩).1 = errObs "1" emsg :=
  ⟨Or.inl (by decide),
    unknown_or_invalid_never_executes _ _ _ (Or.inl (by decide))⟩

theorem clean_data_ne_null (j : Json) (h : j.isNull = false) :
    (clean_data j).isNull = false := by
  cases j <;> simp_all [clean_data, Json.isNull]

theorem cleanItems_idem (xs : List Json)
    (ih : ∀ v ∈ xs, clean_data (clean_data v) = clean_data v) :
    cleanItems (cleanItems xs) = cleanItems xs := by
  induction xs with
  | nil => rfl
  | cons v rest ihr =>
    have ihrest := ihr (fun w hw => ih w (List.mem_cons_of_mem _ hw))
    by_cases hv : v.isNull = true
    · simpa [cleanItems, hv] using ihrest
    · have hv0 : v.isNull = false := by revert hv; cases v.isNull <;> simp
      have hv' : (clean_data v).isNull = false := clean_data_ne_null v hv0
      simp [cleanItems, hv0, hv', ih v (List.mem_cons_self v rest), ihrest]

theorem cleanFields_idem (kvs : List (String × Json))
    (ih : ∀ p ∈ kvs, clean_data (clean_data p.2) = clean_data p.2) :
    cleanFields (cleanFields kvs) = cleanFields kvs := by
  induction kvs with
  | nil => rfl
  | cons p rest ihr =>
    obtain ⟨k, v⟩ := p
    have ihrest := ihr (fun w hw => ih w (List.mem_cons_of_mem _ hw))
    by_cases hcond : ¬ v.isNull ∧ ¬ k.endsWith "_id" ∧ k ∉ ["ships", "capsules", "payloads"]
    · have hv0 : v.isNull = false := by
        have := hcond.1
        revert this
        cases v.isNull <;> simp
      have hv' : (clean_data v).isNull = false := clean_data_ne_null v hv0
      have hcond2 : ¬ (clean_data v).isNull ∧ ¬ k.endsWith "_id" ∧
          k ∉ ["ships", "capsules", "payloads"] :=
        ⟨by simp [hv'], hcond.2.1, hcond.2.2⟩
      simp [cleanFields, hcond, hcond2, ih (k, v) (List.mem_cons_self _ rest), ihrest]
    · simp only [cleanFields]
      rw [if_neg hcond]
      exact ihrest

/-- C8: the response-shrinking transform is idempotent. -/
theorem clean_data_idempotent (j : Json) :
    clean_data (clean_data j) = clean_data j := by
  have main : ∀ n, ∀ j : Json, sizeOf j ≤ n →
      clean_data (clean_data j) = clean_data j := by
    intro n
    induction n with
    | zero =>
      intro j hj
      cases j <;> simp at hj
    | succ n ih =>
      intro j hj
      cases j with
      | null => rfl
      | bool b => rfl
      | num k => rfl
      | str s => rfl
      | arr xs =>
        simp only [clean_data]
        rw [cleanItems_idem]
        intro v hv
        have hlt := List.sizeOf_lt_of_mem hv
        have hs : sizeOf (Json.arr xs) = 1 + sizeOf xs := by simp
        exact ih v (by omega)
      | obj kvs =>
        simp only [clean_data]
        rw [cleanFields_idem]
        intro p hp
        have hlt := List.sizeOf_lt_of_mem hp
        have hs : sizeOf (Json.obj kvs) = 1 + sizeOf kvs := by simp
        obtain ⟨k, v⟩ := p
        have hpv : sizeOf v < sizeOf (k, v) := by simp
        exact ih v (by simp at hlt ⊢; omega)
  exact main (sizeOf j) j (Nat.le_refl _)

/-- C7: a call that fails with a connection-level error on every attempt is
attempted exactly `stop_after_attempt = 3` times and then surfaces the
failure; an application-level non-2xx response is never retried and is
converted immediately (one attempt) into the structured error payload. -/
theorem retry_ceiling (transport : Nat → HttpOutcome) :
    ((∀ n, ∃ k, transport n = .connError k) →
      (client_get transport).1 = stop_after_attempt ∧
      ∃ k, (client_get transport).2 = .raised k) ∧
    (∀ code, transport 1 = .statusError code →
      client_get transport = (1, .ok (errorDict code))) := by
  constructor
  · intro h
    obtain ⟨k1, h1⟩ := h 1
    obtain ⟨k2, h2⟩ := h 2
    obtain ⟨k3, h3⟩ := h 3
    refine ⟨?_, k3, ?_⟩ <;>
      simp [client_get, stop_after_attempt, retryCall, attemptOnce, h1, h2, h3]
  · intro code hc
    simp [client_get, stop_after_attempt, retryCall, attemptOnce, hc]

theorem retry_ceiling_witness :
    (∀ n, ∃ k, (fun _ : Nat => HttpOutcome.connError .connectTimeout) n = .connError k) ∧
    (client_get (fun _ => .connError .connectTimeout)).1 = stop_after_attempt ∧
    (∃ k, (client_get (fun _ => .connError .connectTimeout)).2 = .raised k) ∧
    (fun _ : Nat => HttpOutcome.statusError 500) 1 = .statusError 500 ∧
    client_get (fun _ => .statusError 500) = (1, .ok (errorDict 500)) := by
  have hconn : ∀ n, ∃ k, (fun _ : Nat => HttpOutcome.connError .connectTimeout) n
      = .connError k := fun _ => ⟨.connectTimeout, rfl⟩
  obtain ⟨ha, hb⟩ := (retry_ceiling (fun _ => .connError .connectTimeout)).1 hconn
  exact ⟨hconn, ha, hb, rfl, (retry_ceiling (fun _ => .statusError 500)).2 500 rfl⟩

/-- C9: an application-level error on the launches-query endpoint yields the
`errorDict` payload, which has no `"docs"` key; `query_launches` then
discards it and returns the empty list, exactly what a query with zero
matches (`{"docs": []}`) produces. -/
theorem query_launches_error_empty (code : Nat) (input : LaunchQueryInput) :
    retryCall (fun _ => .statusError code) 1 stop_after_attempt
      = (1, .ok (errorDict code)) ∧
    (errorDict code).getKeyD "docs" (.arr []) = .arr [] ∧
    query_launches (fun _ => errorDict code) input = .arr [] ∧
    query_launches (fun _ => errorDict code) input
      = query_launches (fun _ => .obj [("docs", .arr [])]) input :=
  ⟨rfl, rfl, rfl, rfl⟩
